import Mathlib

/-!
Verification of the conditional time-branch content model of
`src/core/src/models/conditionals.rs` and the message envelopes of
`src/core/src/models/payloads.rs`.

The Rust source fragment declares only the serde data model; the
resolution and translation semantics are given by the design document
(§4) and are modelled here from its words.  Serialization behaviour is
derived from the serde attributes present in the source (`rename`,
`skip_serializing_if = "Option::is_none"`, `tag = "type"`), using the
standard serde-derive semantics.
-/

deriving instance DecidableEq for Except

namespace Agentic

/-- A JSON value, the wire representation serde serializes into.
Objects keep their fields in emission order. -/
inductive Json where
  | null : Json
  | bool : Bool → Json
  | num : Int → Json
  | str : String → Json
  | arr : List Json → Json
  | obj : List (String × Json) → Json
deriving Repr

/-- The keys of a JSON object, in order; `[]` on non-objects. -/
def Json.objKeys : Json → List String
  | .obj fs => fs.map Prod.fst
  | _ => []

/-- Field lookup in a JSON object: the value of the first field named
`k`, or `none` when the value is not an object or has no such field.
This is how serde-derive consumes a map during struct deserialization. -/
def Json.getField (j : Json) (k : String) : Option Json :=
  match j with
  | .obj fs => (fs.find? (fun p => p.fst == k)).map Prod.snd
  | _ => none

/-- `BranchContent` from `conditionals.rs`: discriminator `type`,
optional `content`, optional `media_url` (wire name `mediaUrl`). -/
structure BranchContent where
  type : String
  content : Option String
  media_url : Option String
deriving Repr, DecidableEq

/-- `TimeBranch` from `conditionals.rs`: a window given by the strings
`start_time`/`end_time` (wire names `startTime`/`endTime`) with the
`BranchContent` fields inlined. -/
structure TimeBranch where
  start_time : String
  end_time : String
  type : String
  content : Option String
  media_url : Option String
deriving Repr, DecidableEq

/-- `ConditionalTimeMetadata` from `conditionals.rs`: an ordered
sequence of branches plus an optional fallback content. -/
structure ConditionalTimeMetadata where
  branches : List TimeBranch
  fallback : Option BranchContent
deriving Repr, DecidableEq

/-- `MediaPayload` from `conditionals.rs`. -/
structure MediaPayload where
  url : String
deriving Repr, DecidableEq

/-- `OutgoingPayload` from `conditionals.rs`: five optional fields,
each carrying `skip_serializing_if = "Option::is_none"`. -/
structure OutgoingPayload where
  text : Option String
  image : Option MediaPayload
  audio : Option MediaPayload
  caption : Option String
  ptt : Option Bool
deriving Repr, DecidableEq

/-- `MessageContent` from `payloads.rs`. -/
structure MessageContent where
  text : Option String
  media_url : Option String
  timestamp : Int
deriving Repr, DecidableEq

/-- `IncomingMessage` from `payloads.rs`: an internally tagged union
(`tag = "type"`) with the variants `NEW_MESSAGE`, `EXECUTE_STEP`,
`SCHEDULE_STEP`. -/
inductive IncomingMessage where
  | newMessage (bot_id session_id identifier platform : String)
      (from_me : Bool) (sender : String) (message : MessageContent)
  | executeStep (execution_id step_id : String)
  | scheduleStep (execution_id : String) (step_order : Int)
deriving Repr, DecidableEq

/-- Resolution errors of §7 of the design document. -/
inductive ResolveError where
  | malformedTimeValue : ResolveError
deriving Repr, DecidableEq

/-- Translation errors of §7 of the design document. -/
inductive TranslationError where
  | unknownContentKind : TranslationError
  | incompleteContent : TranslationError
deriving Repr, DecidableEq

/-- Accumulate a run of decimal digits into a value; `none` at the
first non-digit character. -/
def digitsVal : List Char → Nat → Option Nat
  | [], acc => some acc
  | c :: cs, acc =>
    if c.isDigit then digitsVal cs (acc * 10 + (c.toNat - 48)) else none

/-- Interpret a character run as a decimal number; `none` unless it is
non-empty and all digits. -/
def parseDecimal : List Char → Option Nat
  | [] => none
  | c :: cs => digitsVal (c :: cs) 0

/-- Split a character list into its colon-separated segments. -/
def splitColon : List Char → List (List Char)
  | [] => [[]]
  | c :: cs =>
    if c = ':' then [] :: splitColon cs
    else
      match splitColon cs with
      | [] => [[c]]
      | seg :: more => (c :: seg) :: more

/-- Modelled from the spec: §4 requires each branch's time strings to
parse into a comparable time-of-day representation.  The wire format is
`"HH:MM"`; we normalize it to minutes after midnight, failing on
anything malformed. -/
def parseTime (s : String) : Option Nat :=
  match splitColon s.toList with
  | [h, m] =>
    match parseDecimal h, parseDecimal m with
    | some hh, some mm =>
      if hh < 24 && mm < 60 then some (hh * 60 + mm) else none
    | _, _ => none
  | _ => none

/-- Modelled from the spec: §4 step 2.  A window matches `now` when
`start_time <= now < end_time`; a window crossing midnight
(`start_time > end_time`) matches when `now >= start_time` or
`now < end_time`. -/
def branchMatches (startMin endMin now : Nat) : Bool :=
  if startMin ≤ endMin then decide (startMin ≤ now) && decide (now < endMin)
  else decide (now ≥ startMin) || decide (now < endMin)

/-- A branch whose window has been normalized into minutes. -/
structure ParsedBranch where
  startMin : Nat
  endMin : Nat
  content : BranchContent
deriving Repr, DecidableEq

/-- Modelled from the spec: §4 step 1, normalizing one branch;
malformed `start_time`/`end_time` is a `MalformedTimeValue` data
error. -/
def TimeBranch.parse (b : TimeBranch) : Except ResolveError ParsedBranch :=
  match parseTime b.start_time, parseTime b.end_time with
  | some s, some e => .ok ⟨s, e, ⟨b.type, b.content, b.media_url⟩⟩
  | _, _ => .error .malformedTimeValue

/-- Traverse a list with a fallible function, stopping at the first
error — the shape of a Rust loop propagating with `?`. -/
def mapMExcept (f : α → Except ε β) : List α → Except ε (List β)
  | [] => .ok []
  | a :: l =>
    match f a with
    | .error e => .error e
    | .ok b =>
      match mapMExcept f l with
      | .error e => .error e
      | .ok bs => .ok (b :: bs)

/-- Does a parsed branch match the query time? -/
def matchesNow (now : Nat) (pb : ParsedBranch) : Bool :=
  branchMatches pb.startMin pb.endMin now

/-- Modelled from the spec: §4 `resolve(metadata, now)`.  All branch
windows are normalized first (a malformed one aborts the whole
resolution, the recommended default of §7); then the first branch in
declaration order whose window contains `now` wins; with no match the
fallback, if present, is returned; otherwise nothing. -/
def resolve (md : ConditionalTimeMetadata) (now : Nat) :
    Except ResolveError (Option BranchContent) :=
  match mapMExcept TimeBranch.parse md.branches with
  | .error e => .error e
  | .ok parsed =>
    match parsed.find? (matchesNow now) with
    | some pb => .ok (some pb.content)
    | none => .ok md.fallback

/-- Modelled from the spec: §4 translation step, a discriminator-driven
mapping from a resolved `BranchContent` to an `OutgoingPayload`.
Unknown kinds and missing media urls are translation failures. -/
def translate (c : BranchContent) : Except TranslationError OutgoingPayload :=
  match c.type with
  | "text" => .ok ⟨c.content, none, none, none, none⟩
  | "image" =>
    match c.media_url with
    | some u => .ok ⟨none, some ⟨u⟩, none, c.content, none⟩
    | none => .error .incompleteContent
  | "audio" =>
    match c.media_url with
    | some u => .ok ⟨none, none, some ⟨u⟩, none, none⟩
    | none => .error .incompleteContent
  | _ => .error .unknownContentKind

/-- Serde serialization of an `Option<String>` field that carries no
skip attribute: `None` is emitted as an explicit `null`. -/
def optStrJson : Option String → Json
  | none => .null
  | some s => .str s

/-- Serde deserialization of an `Option<String>` field: a missing field
or a `null` gives `None`, a string gives `Some`. -/
def decodeOptStr : Option Json → Except String (Option String)
  | none => .ok none
  | some .null => .ok none
  | some (.str s) => .ok (some s)
  | some _ => .error "expected string or null"

/-- Serde deserialization of an `Option<bool>` field. -/
def decodeOptBool : Option Json → Except String (Option Bool)
  | none => .ok none
  | some .null => .ok none
  | some (.bool b) => .ok (some b)
  | some _ => .error "expected bool or null"

/-- Serde deserialization of a required `String` field. -/
def decodeStr : Option Json → Except String String
  | some (.str s) => .ok s
  | _ => .error "expected string"

/-- Serde deserialization of a required integer field. -/
def decodeInt : Option Json → Except String Int
  | some (.num n) => .ok n
  | _ => .error "expected integer"

/-- Serde deserialization of an optional field of any object type:
missing or `null` gives `None`, anything else goes through `f`. -/
def decodeOpt (f : Json → Except String α) :
    Option Json → Except String (Option α)
  | none => .ok none
  | some .null => .ok none
  | some j => (f j).map some

/-- Serde serialization of `MediaPayload`. -/
def MediaPayload.toJson (m : MediaPayload) : Json :=
  .obj [("url", .str m.url)]

/-- Serde deserialization of `MediaPayload`. -/
def MediaPayload.fromJson (j : Json) : Except String MediaPayload :=
  match j with
  | .obj _ => (decodeStr (j.getField "url")).map MediaPayload.mk
  | _ => .error "expected object"

/-- Serde serialization of `OutgoingPayload`: every field carries
`skip_serializing_if = "Option::is_none"`, so an absent field is left
out of the object entirely. -/
def OutgoingPayload.toJson (p : OutgoingPayload) : Json :=
  .obj ((match p.text with
      | some t => [("text", Json.str t)]
      | none => [])
    ++ (match p.image with
      | some m => [("image", m.toJson)]
      | none => [])
    ++ (match p.audio with
      | some m => [("audio", m.toJson)]
      | none => [])
    ++ (match p.caption with
      | some c => [("caption", Json.str c)]
      | none => [])
    ++ (match p.ptt with
      | some b => [("ptt", Json.bool b)]
      | none => []))

/-- Serde deserialization of `OutgoingPayload`. -/
def OutgoingPayload.fromJson (j : Json) : Except String OutgoingPayload :=
  match j with
  | .obj _ => do
    let text ← decodeOptStr (j.getField "text")
    let image ← decodeOpt MediaPayload.fromJson (j.getField "image")
    let audio ← decodeOpt MediaPayload.fromJson (j.getField "audio")
    let caption ← decodeOptStr (j.getField "caption")
    let ptt ← decodeOptBool (j.getField "ptt")
    .ok ⟨text, image, audio, caption, ptt⟩
  | _ => .error "expected object"

/-- Serde serialization of `BranchContent`, with the wire name
`mediaUrl` from its `rename` attribute. -/
def BranchContent.toJson (c : BranchContent) : Json :=
  .obj [("type", .str c.type), ("content", optStrJson c.content),
    ("mediaUrl", optStrJson c.media_url)]

/-- Serde deserialization of `BranchContent`. -/
def BranchContent.fromJson (j : Json) : Except String BranchContent :=
  match j with
  | .obj _ => do
    let t ← decodeStr (j.getField "type")
    let content ← decodeOptStr (j.getField "content")
    let mediaUrl ← decodeOptStr (j.getField "mediaUrl")
    .ok ⟨t, content, mediaUrl⟩
  | _ => .error "expected object"

/-- Serde serialization of `TimeBranch`, with the wire names
`startTime`, `endTime`, `mediaUrl` from its `rename` attributes. -/
def TimeBranch.toJson (b : TimeBranch) : Json :=
  .obj [("startTime", .str b.start_time), ("endTime", .str b.end_time),
    ("type", .str b.type), ("content", optStrJson b.content),
    ("mediaUrl", optStrJson b.media_url)]

/-- Serde deserialization of `TimeBranch`. -/
def TimeBranch.fromJson (j : Json) : Except String TimeBranch :=
  match j with
  | .obj _ => do
    let s ← decodeStr (j.getField "startTime")
    let e ← decodeStr (j.getField "endTime")
    let t ← decodeStr (j.getField "type")
    let content ← decodeOptStr (j.getField "content")
    let mediaUrl ← decodeOptStr (j.getField "mediaUrl")
    .ok ⟨s, e, t, content, mediaUrl⟩
  | _ => .error "expected object"

/-- Serde serialization of `ConditionalTimeMetadata`: `fallback` has no
skip attribute, so `None` serializes as `null`. -/
def ConditionalTimeMetadata.toJson (md : ConditionalTimeMetadata) : Json :=
  .obj [("branches", .arr (md.branches.map TimeBranch.toJson)),
    ("fallback", match md.fallback with
      | some c => c.toJson
      | none => .null)]

/-- Serde deserialization of `ConditionalTimeMetadata`. -/
def ConditionalTimeMetadata.fromJson (j : Json) :
    Except String ConditionalTimeMetadata :=
  match j with
  | .obj _ => do
    let branches ←
      match j.getField "branches" with
      | some (.arr xs) => mapMExcept TimeBranch.fromJson xs
      | _ => .error "expected array"
    let fallback ← decodeOpt BranchContent.fromJson (j.getField "fallback")
    .ok ⟨branches, fallback⟩
  | _ => .error "expected object"

/-- Serde serialization of `MessageContent`. -/
def MessageContent.toJson (m : MessageContent) : Json :=
  .obj [("text", optStrJson m.text), ("mediaUrl", optStrJson m.media_url),
    ("timestamp", .num m.timestamp)]

/-- Serde deserialization of `MessageContent`. -/
def MessageContent.fromJson (j : Json) : Except String MessageContent :=
  match j with
  | .obj _ => do
    let text ← decodeOptStr (j.getField "text")
    let mediaUrl ← decodeOptStr (j.getField "mediaUrl")
    let timestamp ← decodeInt (j.getField "timestamp")
    .ok ⟨text, mediaUrl, timestamp⟩
  | _ => .error "expected object"

/-- Serde serialization of `IncomingMessage`: internally tagged with
`tag = "type"`, emitting the renamed variant tag first and then the
variant's fields in declaration order. -/
def IncomingMessage.toJson : IncomingMessage → Json
  | .newMessage bot_id session_id identifier platform from_me sender message =>
    .obj [("type", .str "NEW_MESSAGE"), ("bot_id", .str bot_id),
      ("session_id", .str session_id), ("identifier", .str identifier),
      ("platform", .str platform), ("from_me", .bool from_me),
      ("sender", .str sender), ("message", message.toJson)]
  | .executeStep execution_id step_id =>
    .obj [("type", .str "EXECUTE_STEP"), ("execution_id", .str execution_id),
      ("step_id", .str step_id)]
  | .scheduleStep execution_id step_order =>
    .obj [("type", .str "SCHEDULE_STEP"),
      ("execution_id", .str execution_id), ("step_order", .num step_order)]

/-- Serde deserialization of `IncomingMessage`: the `"type"` field
selects the variant; an unknown or missing tag is an error. -/
def IncomingMessage.fromJson (j : Json) : Except String IncomingMessage :=
  match j with
  | .obj _ =>
    match j.getField "type" with
    | some (.str t) =>
      if t = "NEW_MESSAGE" then do
        let bot_id ← decodeStr (j.getField "bot_id")
        let session_id ← decodeStr (j.getField "session_id")
        let identifier ← decodeStr (j.getField "identifier")
        let platform ← decodeStr (j.getField "platform")
        let from_me ←
          match j.getField "from_me" with
          | some (.bool b) => Except.ok b
          | _ => .error "expected bool"
        let sender ← decodeStr (j.getField "sender")
        let message ←
          match j.getField "message" with
          | some mj => MessageContent.fromJson mj
          | none => .error "missing message"
        .ok (.newMessage bot_id session_id identifier platform from_me
          sender message)
      else if t = "EXECUTE_STEP" then do
        let execution_id ← decodeStr (j.getField "execution_id")
        let step_id ← decodeStr (j.getField "step_id")
        .ok (.executeStep execution_id step_id)
      else if t = "SCHEDULE_STEP" then do
        let execution_id ← decodeStr (j.getField "execution_id")
        let step_order ← decodeInt (j.getField "step_order")
        .ok (.scheduleStep execution_id step_order)
      else .error ("unknown variant tag " ++ t)
    | _ => .error "missing type tag"
  | _ => .error "expected object"

mutual

/-- Render a JSON value to its compact wire string. -/
def Json.render : Json → String
  | .null => "null"
  | .bool b => cond b "true" "false"
  | .num n => toString n
  | .str s => "\"" ++ s ++ "\""
  | .arr xs => "[" ++ Json.renderArr xs ++ "]"
  | .obj fs => "\x7b" ++ Json.renderObj fs ++ "\x7d"

/-- Render the comma-separated elements of a JSON array. -/
def Json.renderArr : List Json → String
  | [] => ""
  | [j] => Json.render j
  | j :: rest => Json.render j ++ "," ++ Json.renderArr rest

/-- Render the comma-separated fields of a JSON object. -/
def Json.renderObj : List (String × Json) → String
  | [] => ""
  | [(k, v)] => "\"" ++ k ++ "\":" ++ Json.render v
  | (k, v) :: rest =>
    "\"" ++ k ++ "\":" ++ Json.render v ++ "," ++ Json.renderObj rest

end

/-- The fields of a JSON object; `[]` on non-objects. -/
def Json.objFields : Json → List (String × Json)
  | .obj fs => fs
  | _ => []

/-- Branch A of the spec's tie-break example: window 09:00-17:00. -/
def branchA : TimeBranch := ⟨"09:00", "17:00", "text", some "A", none⟩

/-- Branch B of the spec's tie-break example: window 10:00-11:00. -/
def branchB : TimeBranch := ⟨"10:00", "11:00", "text", some "B", none⟩

/-- Metadata holding the two overlapping branches A and B, in order. -/
def mdOverlap : ConditionalTimeMetadata := ⟨[branchA, branchB], none⟩

/-- The normalized form of `mdOverlap`'s branches. -/
def parsedOverlap : List ParsedBranch :=
  [⟨540, 1020, ⟨"text", some "A", none⟩⟩, ⟨600, 660, ⟨"text", some "B", none⟩⟩]

/-- A fallback content fixture. -/
def fbContent : BranchContent := ⟨"text", some "fb", none⟩

/-- The spec's single-branch example: window 10:00-12:00, with a
fallback. -/
def mdSingle : ConditionalTimeMetadata :=
  ⟨[⟨"10:00", "12:00", "text", some "S", none⟩], some fbContent⟩

/-- Metadata with no branches and a fallback. -/
def mdEmptyFb : ConditionalTimeMetadata := ⟨[], some fbContent⟩

/-- Metadata holding a branch whose start time does not parse. -/
def mdBadTime : ConditionalTimeMetadata :=
  ⟨[⟨"banana", "17:00", "text", some "A", none⟩], some fbContent⟩

/-! ## Helper lemmas -/

/-- The first element satisfying a predicate is the head of the
filtered list. -/
theorem find?_eq_head?_filter (p : α → Bool) (l : List α) :
    l.find? p = (l.filter p).head? := by
  induction l with
  | nil => rfl
  | cons a l ih =>
    by_cases h : p a
    · rw [List.find?_cons_of_pos _ h, List.filter_cons_of_pos h, List.head?_cons]
    · rw [List.find?_cons_of_neg _ h, List.filter_cons_of_neg h, ih]

/-- A failing element makes the whole traversal fail; with a single
error constructor the resulting error is that constructor. -/
theorem mapMExcept_error_of_mem {l : List α} {b : α}
    (f : α → Except ResolveError β) (hb : b ∈ l)
    (he : f b = .error .malformedTimeValue) :
    mapMExcept f l = .error .malformedTimeValue := by
  induction l with
  | nil => cases hb
  | cons a l ih =>
    rcases List.mem_cons.mp hb with rfl | h
    · simp only [mapMExcept, he]
    · cases hfa : f a with
      | error e => cases e; simp only [mapMExcept, hfa]
      | ok x => simp only [mapMExcept, hfa, ih h]

/-- Deserializing the serialized form of a `BranchContent` gives the
value back. -/
theorem bc_roundtrip (c : BranchContent) :
    BranchContent.fromJson c.toJson = .ok c := by
  obtain ⟨t, co, mu⟩ := c
  cases co <;> cases mu <;>
    simp [BranchContent.toJson, BranchContent.fromJson, Json.getField,
      optStrJson, decodeStr, decodeOptStr, List.find?, bind, Except.bind]

/-- Deserializing the serialized form of a `TimeBranch` gives the value
back. -/
theorem tb_roundtrip (b : TimeBranch) :
    TimeBranch.fromJson b.toJson = .ok b := by
  obtain ⟨s, e, t, co, mu⟩ := b
  cases co <;> cases mu <;>
    simp [TimeBranch.toJson, TimeBranch.fromJson, Json.getField,
      optStrJson, decodeStr, decodeOptStr, List.find?, bind, Except.bind]

/-- Deserializing the serialized form of a `MessageContent` gives the
value back. -/
theorem mc_roundtrip (m : MessageContent) :
    MessageContent.fromJson m.toJson = .ok m := by
  obtain ⟨t, mu, ts⟩ := m
  cases t <;> cases mu <;>
    simp [MessageContent.toJson, MessageContent.fromJson, Json.getField,
      optStrJson, decodeOptStr, decodeInt, List.find?, bind, Except.bind]

/-- Deserializing the serialized form of an `OutgoingPayload` gives the
value back. -/
theorem op_roundtrip (p : OutgoingPayload) :
    OutgoingPayload.fromJson p.toJson = .ok p := by
  obtain ⟨t, i, a, c, pt⟩ := p
  cases t <;> cases i <;> cases a <;> cases c <;> cases pt <;>
    simp [OutgoingPayload.toJson, OutgoingPayload.fromJson, Json.getField,
      MediaPayload.toJson, MediaPayload.fromJson, decodeStr, decodeOptStr,
      decodeOptBool, decodeOpt, List.find?, bind, Except.bind, Except.map]

/-- Deserializing a serialized branch list gives the branches back. -/
theorem mapMExcept_tb_roundtrip (l : List TimeBranch) :
    mapMExcept TimeBranch.fromJson (l.map TimeBranch.toJson) = .ok l := by
  induction l with
  | nil => rfl
  | cons b l ih => simp only [List.map_cons, mapMExcept, tb_roundtrip, ih]

/-- Decoding an optional field holding a serialized `BranchContent`
gives the content back. -/
theorem decodeOpt_bc (c : BranchContent) :
    decodeOpt BranchContent.fromJson (some c.toJson) = .ok (some c) := by
  obtain ⟨t, co, mu⟩ := c
  cases co <;> cases mu <;>
    simp [decodeOpt, BranchContent.toJson, BranchContent.fromJson,
      Json.getField, optStrJson, decodeStr, decodeOptStr, List.find?,
      bind, Except.bind, Except.map]

/-- Deserializing the serialized form of a `ConditionalTimeMetadata`
gives the value back. -/
theorem md_roundtrip (md : ConditionalTimeMetadata) :
    ConditionalTimeMetadata.fromJson md.toJson = .ok md := by
  obtain ⟨branches, fallback⟩ := md
  cases fallback with
  | none =>
    simp [ConditionalTimeMetadata.toJson, ConditionalTimeMetadata.fromJson,
      Json.getField, List.find?, mapMExcept_tb_roundtrip, decodeOpt,
      bind, Except.bind]
  | some c =>
    simp [ConditionalTimeMetadata.toJson, ConditionalTimeMetadata.fromJson,
      Json.getField, List.find?, mapMExcept_tb_roundtrip, decodeOpt_bc,
      bind, Except.bind]

/-! ## Claim theorems -/

/-- C1: when more than one branch's window contains `now`, `resolve`
returns the content of the first matching branch in the declaration
order of `metadata.branches` — first match wins. -/
theorem resolve_first_match_wins (md : ConditionalTimeMetadata) (now : Nat)
    (parsed : List ParsedBranch) (pb : ParsedBranch)
    (hparse : mapMExcept TimeBranch.parse md.branches = .ok parsed)
    (hmulti : 1 < (parsed.filter (matchesNow now)).length)
    (hfirst : (parsed.filter (matchesNow now)).head? = some pb) :
    resolve md now = .ok (some pb.content) := by
  simp only [resolve, hparse]
  rw [find?_eq_head?_filter, hfirst]

/-- C1 witness: overlapping branches A 09:00-17:00 and B 10:00-11:00,
queried at 10:30 (630 minutes), resolve to A's content. -/
theorem resolve_first_match_wins_witness :
    mapMExcept TimeBranch.parse mdOverlap.branches = .ok parsedOverlap ∧
    1 < (parsedOverlap.filter (matchesNow 630)).length ∧
    (parsedOverlap.filter (matchesNow 630)).head? =
      some ⟨540, 1020, ⟨"text", some "A", none⟩⟩ ∧
    resolve mdOverlap 630 = .ok (some ⟨"text", some "A", none⟩) :=
  ⟨by decide, by decide, by decide,
    resolve_first_match_wins mdOverlap 630 parsedOverlap
      ⟨540, 1020, ⟨"text", some "A", none⟩⟩ (by decide) (by decide) (by decide)⟩

/-- C2: a normalized branch window matches `now` exactly when
`start <= end` and `start <= now < end`, or `start > end`
(midnight-crossing) and `now >= start` or `now < end`; in particular
the window 22:00-02:00 matches 23:30 and 01:00 but not 12:00, and a
single branch 10:00-12:00 resolves at 11:00 but falls back at 12:00 and
09:59. -/
theorem branch_window_matching :
    (∀ s e now : Nat, branchMatches s e now = true ↔
      ((s ≤ e ∧ s ≤ now ∧ now < e) ∨ (e < s ∧ (s ≤ now ∨ now < e)))) ∧
    parseTime "22:00" = some 1320 ∧ parseTime "02:00" = some 120 ∧
    branchMatches 1320 120 1410 = true ∧
    branchMatches 1320 120 60 = true ∧
    branchMatches 1320 120 720 = false ∧
    resolve mdSingle 660 = .ok (some ⟨"text", some "S", none⟩) ∧
    resolve mdSingle 720 = .ok (some fbContent) ∧
    resolve mdSingle 599 = .ok (some fbContent) := by
  refine ⟨?_, by decide, by decide, by decide, by decide, by decide,
    by decide, by decide, by decide⟩
  intro s e now
  unfold branchMatches
  by_cases h : s ≤ e <;> simp [h] <;> omega

/-- C3: when no branch's window contains `now`, `resolve` returns the
fallback when present and nothing otherwise; with zero branches this
holds for any `now`. -/
theorem resolve_no_match_fallback (md : ConditionalTimeMetadata) (now : Nat)
    (parsed : List ParsedBranch)
    (hparse : mapMExcept TimeBranch.parse md.branches = .ok parsed)
    (hnone : ∀ pb ∈ parsed, matchesNow now pb = false) :
    resolve md now = .ok md.fallback := by
  simp only [resolve, hparse]
  have hfind : parsed.find? (matchesNow now) = none :=
    List.find?_eq_none.mpr (by simpa using hnone)
  rw [hfind]

/-- C3 witness: zero branches and a fallback resolve to the fallback. -/
theorem resolve_no_match_fallback_witness :
    mapMExcept TimeBranch.parse mdEmptyFb.branches = .ok [] ∧
    resolve mdEmptyFb 5 = .ok (some fbContent) :=
  ⟨by decide,
    resolve_no_match_fallback mdEmptyFb 5 [] (by decide) (by decide)⟩

/-- C5: a `BranchContent` whose kind is none of "text", "image",
"audio" makes translation fail with `UnknownContentKind`; it never
yields a default text payload. -/
theorem translate_unknown_kind_fails (c : BranchContent)
    (h1 : c.type ≠ "text") (h2 : c.type ≠ "image") (h3 : c.type ≠ "audio") :
    translate c = .error .unknownContentKind := by
  unfold translate
  split <;> simp_all

/-- C5 witness: kind "video" is a translation failure. -/
theorem translate_unknown_kind_fails_witness :
    translate ⟨"video", some "c", some "u"⟩ = .error .unknownContentKind :=
  translate_unknown_kind_fails ⟨"video", some "c", some "u"⟩
    (by decide) (by decide) (by decide)

/-- C6: a branch whose start or end time does not parse makes `resolve`
surface `MalformedTimeValue` to the caller — it is neither skipped as
never-matching nor taken as always-matching. -/
theorem resolve_malformed_time_surfaces_error (md : ConditionalTimeMetadata)
    (now : Nat) (b : TimeBranch) (hb : b ∈ md.branches)
    (hbad : parseTime b.start_time = none ∨ parseTime b.end_time = none) :
    resolve md now = .error .malformedTimeValue := by
  have hpb : TimeBranch.parse b = .error .malformedTimeValue := by
    unfold TimeBranch.parse
    rcases hbad with h | h
    · cases he : parseTime b.end_time <;> simp [h, he]
    · cases hs : parseTime b.start_time <;> simp [hs, h]
  have hmap : mapMExcept TimeBranch.parse md.branches =
      .error .malformedTimeValue :=
    mapMExcept_error_of_mem TimeBranch.parse hb hpb
  simp only [resolve, hmap]

/-- C6 witness: a branch with start time "banana" aborts resolution
with `MalformedTimeValue`, even in the presence of a fallback. -/
theorem resolve_malformed_time_surfaces_error_witness :
    (⟨"banana", "17:00", "text", some "A", none⟩ : TimeBranch) ∈
      mdBadTime.branches ∧
    parseTime "banana" = none ∧
    resolve mdBadTime 630 = .error .malformedTimeValue :=
  ⟨by decide, by decide,
    resolve_malformed_time_surfaces_error mdBadTime 630
      ⟨"banana", "17:00", "text", some "A", none⟩ (by decide)
      (Or.inl (by decide))⟩

/-- C4: serializing an `OutgoingPayload` omits each absent optional
field (`text`, `image`, `audio`, `caption`, `ptt`) from the object
entirely; no field of the serialized object is ever an explicit
null. -/
theorem outgoing_payload_omits_absent_fields (p : OutgoingPayload) :
    (p.text = none → "text" ∉ p.toJson.objKeys) ∧
    (p.image = none → "image" ∉ p.toJson.objKeys) ∧
    (p.audio = none → "audio" ∉ p.toJson.objKeys) ∧
    (p.caption = none → "caption" ∉ p.toJson.objKeys) ∧
    (p.ptt = none → "ptt" ∉ p.toJson.objKeys) ∧
    (∀ k : String, (k, Json.null) ∉ p.toJson.objFields) := by
  obtain ⟨t, i, a, c, pt⟩ := p
  cases t <;> cases i <;> cases a <;> cases c <;> cases pt <;>
    simp [OutgoingPayload.toJson, Json.objKeys, Json.objFields,
      MediaPayload.toJson]

/-- C4 witness: the all-absent payload serializes with no "text" key. -/
theorem outgoing_payload_omits_absent_fields_witness :
    OutgoingPayload.text ⟨none, none, none, none, none⟩ = none ∧
    "text" ∉ (OutgoingPayload.toJson ⟨none, none, none, none, none⟩).objKeys :=
  ⟨rfl, (outgoing_payload_omits_absent_fields ⟨none, none, none, none, none⟩).1
    rfl⟩

/-- C7: `ConditionalTimeMetadata` serializes with exactly the external
wire names — branch objects keyed `startTime`, `endTime`, `type`,
`content`, `mediaUrl`, the root keyed `branches` and `fallback` — and
deserializes from those same names. -/
theorem metadata_wire_field_names :
    (∀ b : TimeBranch, (TimeBranch.toJson b).objKeys =
      ["startTime", "endTime", "type", "content", "mediaUrl"]) ∧
    (∀ c : BranchContent, (BranchContent.toJson c).objKeys =
      ["type", "content", "mediaUrl"]) ∧
    (∀ md : ConditionalTimeMetadata,
      (ConditionalTimeMetadata.toJson md).objKeys = ["branches", "fallback"]) ∧
    (∀ md : ConditionalTimeMetadata,
      ConditionalTimeMetadata.fromJson md.toJson = .ok md) :=
  ⟨fun _ => rfl, fun _ => rfl, fun _ => rfl, md_roundtrip⟩

/-- C8: `resolve` and payload translation are deterministic pure
functions — equal inputs give equal results, and translating the same
`BranchContent` twice yields byte-identical serialized payloads. -/
theorem resolver_translation_deterministic :
    (∀ (md1 md2 : ConditionalTimeMetadata) (now1 now2 : Nat),
      md1 = md2 → now1 = now2 → resolve md1 now1 = resolve md2 now2) ∧
    (∀ (c : BranchContent) (p1 p2 : OutgoingPayload),
      translate c = .ok p1 → translate c = .ok p2 →
      Json.render p1.toJson = Json.render p2.toJson) := by
  constructor
  · rintro md1 md2 now1 now2 rfl rfl
    rfl
  · intro c p1 p2 h1 h2
    rw [h1] at h2
    cases h2
    rfl

/-- C8 witness: two translations of a text content render to the same
bytes, and `resolve` agrees with itself on equal inputs. -/
theorem resolver_translation_deterministic_witness :
    resolve mdEmptyFb 0 = resolve mdEmptyFb 0 ∧
    Json.render (OutgoingPayload.toJson ⟨some "hi", none, none, none, none⟩) =
      Json.render (OutgoingPayload.toJson ⟨some "hi", none, none, none, none⟩) :=
  ⟨resolver_translation_deterministic.1 mdEmptyFb mdEmptyFb 0 0 rfl rfl,
    resolver_translation_deterministic.2 ⟨"text", some "hi", none⟩
      ⟨some "hi", none, none, none, none⟩ ⟨some "hi", none, none, none, none⟩
      rfl rfl⟩

/-- C9: deserializing an `IncomingMessage` fails when the `type`
discriminator is unknown or missing, and for the three known tags the
serialized form of each variant deserializes to exactly that
variant. -/
theorem incoming_message_tag_discrimination :
    (∀ (j : Json) (t : String), j.getField "type" = some (.str t) →
      t ≠ "NEW_MESSAGE" → t ≠ "EXECUTE_STEP" → t ≠ "SCHEDULE_STEP" →
      ∃ e, IncomingMessage.fromJson j = .error e) ∧
    (∀ j : Json, j.getField "type" = none →
      ∃ e, IncomingMessage.fromJson j = .error e) ∧
    (∀ m : IncomingMessage, IncomingMessage.fromJson m.toJson = .ok m) := by
  refine ⟨?_, ?_, ?_⟩
  · intro j t hf h1 h2 h3
    cases j with
    | null => simp [Json.getField] at hf
    | bool b => simp [Json.getField] at hf
    | num n => simp [Json.getField] at hf
    | str s => simp [Json.getField] at hf
    | arr xs => simp [Json.getField] at hf
    | obj fs =>
      refine ⟨"unknown variant tag " ++ t, ?_⟩
      simp only [IncomingMessage.fromJson]
      rw [hf]
      simp [h1, h2, h3]
  · intro j hf
    cases j with
    | null => exact ⟨"expected object", rfl⟩
    | bool b => exact ⟨"expected object", rfl⟩
    | num n => exact ⟨"expected object", rfl⟩
    | str s => exact ⟨"expected object", rfl⟩
    | arr xs => exact ⟨"expected object", rfl⟩
    | obj fs =>
      refine ⟨"missing type tag", ?_⟩
      simp only [IncomingMessage.fromJson]
      rw [hf]
  · intro m
    cases m <;>
      simp [IncomingMessage.toJson, IncomingMessage.fromJson, Json.getField,
        List.find?, mc_roundtrip, decodeStr, decodeInt, bind, Except.bind]

/-- C9 witness: the tag "BOGUS" is rejected. -/
theorem incoming_message_tag_discrimination_witness :
    ∃ e, IncomingMessage.fromJson (Json.obj [("type", Json.str "BOGUS")]) =
      .error e :=
  incoming_message_tag_discrimination.1
    (Json.obj [("type", Json.str "BOGUS")]) "BOGUS" rfl
    (by decide) (by decide) (by decide)

/-- C10: serialization round-trips — deserializing the serialized form
of any `ConditionalTimeMetadata` or `OutgoingPayload` yields the
original value, so the omit-when-absent encoding loses no
information. -/
theorem serialization_roundtrip :
    (∀ md : ConditionalTimeMetadata,
      ConditionalTimeMetadata.fromJson md.toJson = .ok md) ∧
    (∀ p : OutgoingPayload, OutgoingPayload.fromJson p.toJson = .ok p) :=
  ⟨md_roundtrip, op_roundtrip⟩

end Agentic
